import Mathlib

/-!
Verification of the discord trading bot core: signal extraction
(signal_parser.py), position sizing and order orchestration
(trade_executor.py together with exchange_connector.py), and the
in-memory active-trades ledger.

Modelling conventions:
* Python floats are modelled as rationals (`ℚ`); the arithmetic in the
  source is plain `+ - * / min`, which the spec reads as exact.
* Fallible operations (order placement, regex searches, `float(...)`)
  are modelled with `Option`; a Python exception that is caught by a
  surrounding `try/except` is modelled as the corresponding failure
  value at the point where the exception would be raised.
* The regular-expression searches of signal_parser.py are embedded as
  executable character-level matchers.  Every pattern in the source is
  "greedy safe": each `X+` / `X*` item is followed by a literal or a
  character class disjoint from `X`, except inside the alternative
  targets-section pattern, where explicit longest-first backtracking is
  implemented.  `re.search` (leftmost match) is a scan over suffixes.
-/

/-- A parsed trading signal (dataclass `TradingSignal`, signal_parser.py). -/
structure TradingSignal where
  symbol : String
  first_buy_range : ℚ × ℚ
  second_buy : ℚ
  cmp : ℚ
  targets : List ℚ
  stop_loss : ℚ
deriving DecidableEq

/-- Python regex `\s` (ASCII whitespace; the inputs of interest are ASCII). -/
def isSpaceCh (c : Char) : Bool :=
  c = ' ' || c = '\t' || c = '\n' || c = '\r' || c = '\x0b' || c = '\x0c'

/-- Character class `[\d.]` (digits and dot). -/
def isNumCh (c : Char) : Bool := c.isDigit || c = '.'

/-- Character class `[:\s]`. -/
def isColonSpace (c : Char) : Bool := c = ':' || isSpaceCh c

/-- Character class `[\s–-]` (whitespace, en dash, hyphen). -/
def isDashSpace (c : Char) : Bool := isSpaceCh c || c = '–' || c = '-'

/-- Character class `[A-Z0-9]` under `re.IGNORECASE`. -/
def isSymCh (c : Char) : Bool := c.isUpper || c.isLower || c.isDigit

/-- Character class `[\d%\s,]` of the targets-section pattern. -/
def isTgtCh (c : Char) : Bool := c.isDigit || c = '%' || isSpaceCh c || c = ','

/-- Character class `[:\n]` of the targets-section pattern. -/
def isColonNl (c : Char) : Bool := c = ':' || c = '\n'

/-- The characters of a pattern literal. -/
def lit (s : String) : List Char := s.data

/-- Match a literal (case-insensitively, `re.IGNORECASE`) at the head of
the input; return the remaining input. -/
def matchLitCI : List Char → List Char → Option (List Char)
  | [], l => some l
  | _ :: _, [] => none
  | w :: ws, c :: cs => if c.toLower = w.toLower then matchLitCI ws cs else none

/-- Split the input into its maximal prefix of characters satisfying `p`
and the remainder (maximal munch). -/
def takeWhileSplit (p : Char → Bool) : List Char → List Char × List Char
  | [] => ([], [])
  | c :: cs =>
    if p c then
      let r := takeWhileSplit p cs
      (c :: r.1, r.2)
    else ([], c :: cs)

/-- Match `X+` for a character class `X` at the head of the input
(greedy); returns the consumed run and the remainder. -/
def matchClassPlus (p : Char → Bool) (l : List Char) : Option (List Char × List Char) :=
  let r := takeWhileSplit p l
  if r.1 = [] then none else some r

/-- `re.search`: try the matcher at every suffix, leftmost first. -/
def reSearch {α : Type} (m : List Char → Option α) : List Char → Option α
  | [] => m []
  | c :: cs => (m (c :: cs)).orElse fun _ => reSearch m cs

/-- Pattern `\$([A-Z0-9]+)` (IGNORECASE) at one position; returns the
captured group. -/
def matchSymbolAt (l : List Char) : Option (List Char) :=
  match l with
  | [] => none
  | c :: cs => if c = '$' then (matchClassPlus isSymCh cs).map (fun r => r.1) else none

/-- Pattern `first\s+buying[:\s]+([\d.]+)[\s–-]+([\d.]+)` (IGNORECASE) at
one position; returns the two captured groups. -/
def matchFirstBuyAt (l : List Char) : Option (List Char × List Char) :=
  (matchLitCI (lit "first") l).bind fun l1 =>
  (matchClassPlus isSpaceCh l1).bind fun r1 =>
  (matchLitCI (lit "buying") r1.2).bind fun l2 =>
  (matchClassPlus isColonSpace l2).bind fun r2 =>
  (matchClassPlus isNumCh r2.2).bind fun g1 =>
  (matchClassPlus isDashSpace g1.2).bind fun r3 =>
  (matchClassPlus isNumCh r3.2).map fun g2 => (g1.1, g2.1)

/-- Pattern `second\s+buying[:\s]+([\d.]+)` (IGNORECASE) at one position. -/
def matchSecondBuyAt (l : List Char) : Option (List Char) :=
  (matchLitCI (lit "second") l).bind fun l1 =>
  (matchClassPlus isSpaceCh l1).bind fun r1 =>
  (matchLitCI (lit "buying") r1.2).bind fun l2 =>
  (matchClassPlus isColonSpace l2).bind fun r2 =>
  (matchClassPlus isNumCh r2.2).map fun g => g.1

/-- Pattern `cmp[:\s]+([\d.]+)` (IGNORECASE) at one position. -/
def matchCmpAt (l : List Char) : Option (List Char) :=
  (matchLitCI (lit "cmp") l).bind fun l1 =>
  (matchClassPlus isColonSpace l1).bind fun r1 =>
  (matchClassPlus isNumCh r1.2).map fun g => g.1

/-- Pattern `sl[:\s]+([\d.]+)` (IGNORECASE) at one position.  The
pre-filter pattern `sl[:\s]+[\d.]+` matches at exactly the same
positions (it only drops the capture). -/
def matchSlAt (l : List Char) : Option (List Char) :=
  (matchLitCI (lit "sl") l).bind fun l1 =>
  (matchClassPlus isColonSpace l1).bind fun r1 =>
  (matchClassPlus isNumCh r1.2).map fun g => g.1

/-- Pattern `(\d+)%` at one position; returns the digit group and the
input remaining after the `%`. -/
def matchPctAt (l : List Char) : Option (List Char × List Char) :=
  (matchClassPlus Char.isDigit l).bind fun r =>
  match r.2 with
  | '%' :: rest => some (r.1, rest)
  | _ => none

/-- `re.findall(r'(\d+)%', ...)`: scan left to right; after a match,
resume after the matched text (non-overlapping), otherwise advance one
character. -/
def findallPctFuel : Nat → List Char → List (List Char)
  | 0, _ => []
  | _, [] => []
  | fuel + 1, c :: cs =>
    match matchPctAt (c :: cs) with
    | some g => g.1 :: findallPctFuel fuel g.2
    | none => findallPctFuel fuel cs

/-- Entry point with enough fuel: every step strictly shortens the
input (a match consumes at least two characters, a miss drops one), so
`l.length` steps always reach the end of the input. -/
def findallPct (l : List Char) : List (List Char) :=
  findallPctFuel l.length l

/-- Longest-first backtracking over the `[:\n]+` item of the
targets-section pattern: try `j, j-1, …, 1` consumed characters, then
require a non-empty `[\d%\s,]+` group. -/
def tryColonRunAux (l : List Char) : Nat → Option (List Char)
  | 0 => none
  | j + 1 =>
    match matchClassPlus isTgtCh (l.drop (j + 1)) with
    | some r => some r.1
    | none => tryColonRunAux l j

/-- Match `[:\n]+([\d%\s,]+)` at the head of the input with greedy
backtracking. -/
def matchColonGroup (l : List Char) : Option (List Char) :=
  tryColonRunAux l (takeWhileSplit isColonNl l).1.length

/-- Longest-first backtracking over the `\s*` item: try `k, k-1, …, 0`
consumed whitespace characters. -/
def trySpaceRunAux (l : List Char) : Nat → Option (List Char)
  | 0 => matchColonGroup l
  | k + 1 =>
    match matchColonGroup (l.drop (k + 1)) with
    | some g => some g
    | none => trySpaceRunAux l k

/-- Match `\s*[:\n]+([\d%\s,]+)` at the head of the input. -/
def matchSpaceColonGroup (l : List Char) : Option (List Char) :=
  trySpaceRunAux l (takeWhileSplit isSpaceCh l).1.length

/-- Pattern `targets?\s*[:\n]+([\d%\s,]+)` (IGNORECASE) at one position:
literal `target`, optional `s` (with-`s` alternative first), then the
backtracking tail. -/
def matchTargetsSectionAt (l : List Char) : Option (List Char) :=
  (matchLitCI (lit "target") l).bind fun l1 =>
  match matchLitCI (lit "s") l1 with
  | some l2 =>
    match matchSpaceColonGroup l2 with
    | some g => some g
    | none => matchSpaceColonGroup l1
  | none => matchSpaceColonGroup l1

/-- Numeric value of a digit string (`float` applied to a `(\d+)` group). -/
def digitsVal (l : List Char) : Nat :=
  l.foldl (fun acc c => acc * 10 + (c.toNat - 48)) 0

/-- Python `float` applied to a `[\d.]+` group: defined exactly when the
group has at most one dot and at least one digit, otherwise `float`
raises `ValueError` (modelled as `none`, caught by the parser's
`try/except`). -/
def floatOfChars (l : List Char) : Option ℚ :=
  if l.count '.' ≤ 1 ∧ l.any Char.isDigit then
    let intPart := l.takeWhile (fun c => !(c = '.'))
    let fracPart := (l.dropWhile (fun c => !(c = '.'))).drop 1
    some ((digitsVal intPart : ℚ) + (digitsVal fracPart : ℚ) / (10 : ℚ) ^ fracPart.length)
  else none

/-- `SignalParser.parse_message` (signal_parser.py, lines 42-136): each
required extraction must succeed, otherwise the whole call returns
nothing; targets are collected from every `(\d+)%` occurrence, with a
targets-section fallback when none are found, and sorted ascending. -/
def parse_message (message_content : String) : Option TradingSignal :=
  let l := message_content.data
  (reSearch matchSymbolAt l).bind fun symGroup =>
  (reSearch matchFirstBuyAt l).bind fun fb =>
  (floatOfChars fb.1).bind fun first_buy_min =>
  (floatOfChars fb.2).bind fun first_buy_max =>
  (reSearch matchSecondBuyAt l).bind fun sbg =>
  (floatOfChars sbg).bind fun second_buy =>
  (reSearch matchCmpAt l).bind fun cmpg =>
  (floatOfChars cmpg).bind fun cmp =>
  let targets0 := (findallPct l).map (fun t => (digitsVal t : ℚ))
  let targets :=
    if targets0 = [] then
      match reSearch matchTargetsSectionAt l with
      | some sec => (findallPct sec).map (fun t => (digitsVal t : ℚ))
      | none => targets0
    else targets0
  (reSearch matchSlAt l).bind fun slg =>
  (floatOfChars slg).map fun stop_loss =>
  { symbol := String.mk (symGroup.map Char.toUpper)
    first_buy_range := (first_buy_min, first_buy_max)
    second_buy := second_buy
    cmp := cmp
    targets := List.insertionSort (fun a b => a ≤ b) targets
    stop_loss := stop_loss }

/-- `SignalParser.is_signal_message` (signal_parser.py, lines 139-156). -/
def is_signal_message (message_content : String) : Bool :=
  let l := message_content.data
  let has_symbol := (reSearch matchSymbolAt l).isSome
  let has_buying := (reSearch (matchLitCI (lit "buying")) l).isSome
  let has_cmp := (reSearch (matchLitCI (lit "cmp")) l).isSome
  let has_targets := (reSearch matchPctAt l).isSome
  let has_sl := (reSearch matchSlAt l).isSome
  has_symbol && has_buying && (has_cmp || has_targets || has_sl)

/-- One exchange-API call issued during an execution, as observable at
the ExchangeClient boundary (`get_symbol` is pure string formatting and
issues no API call). -/
inductive ExchCall where
  | getBalance (asset : String)
  | getMinOrderSize (symbol : String)
  | createLimitOrder (symbol : String) (side : String) (amount : ℚ) (price : ℚ)
  | createStopOrder (symbol : String) (amount : ℚ) (stopPrice : ℚ)
deriving DecidableEq

/-- Trading configuration (config.py). -/
structure Config where
  default_quote_asset : String
  max_position_size : ℚ
  position_size_percentage : ℚ
  enable_stop_loss : Bool
  enable_take_profit : Bool
deriving DecidableEq

/-- The exchange's responses for one execution.  Every connector method
catches its own exceptions and returns a failure value, so each call is
modelled as a total function into `Option`; order references are
abstracted to numbers. -/
structure ExchangeEnv where
  balance : ℚ
  min_order_size : ℚ
  first_order : Option Nat
  second_order : Option Nat
  stop_attempt : Option Nat
  stop_fallback : Option Nat
  tp_order : Nat → Option Nat

/-- `ExchangeConnector.get_symbol` (exchange_connector.py, lines 235-246). -/
def get_symbol (base_asset quote_asset : String) : String :=
  base_asset ++ "/" ++ quote_asset

/-- `ExchangeConnector.place_stop_loss_order` (exchange_connector.py,
lines 165-214): attempt the stop-type order; if the exchange rejects it,
fall back to a plain limit sell at the same stop price.  Returns the
order reference (if any) and the calls issued. -/
def place_stop_loss_order (env : ExchangeEnv) (symbol : String) (amount stop_price : ℚ) :
    Option Nat × List ExchCall :=
  match env.stop_attempt with
  | some o => (some o, [ExchCall.createStopOrder symbol amount stop_price])
  | none =>
      (env.stop_fallback,
        [ExchCall.createStopOrder symbol amount stop_price,
         ExchCall.createLimitOrder symbol "sell" amount stop_price])

/-- `ExchangeConnector.place_take_profit_order` (exchange_connector.py,
lines 216-233): a plain limit sell; `i` indexes the call so distinct
take-profit placements may succeed or fail independently. -/
def place_take_profit_order (env : ExchangeEnv) (i : Nat) (symbol : String)
    (amount target_price : ℚ) : Option Nat × List ExchCall :=
  (env.tp_order i, [ExchCall.createLimitOrder symbol "sell" amount target_price])

/-- The take-profit loop of `execute_signal` (trade_executor.py, lines
130-146): one limit sell per target at `avg × (1 + pct/100)`, collecting
the references of the placements that succeeded. -/
def tpLoop (env : ExchangeEnv) (symbol : String) (amount_per_target avg : ℚ) :
    List ℚ → Nat → List Nat × List ExchCall
  | [], _ => ([], [])
  | t :: ts, i =>
    let price := avg * (1 + t / 100)
    let r := place_take_profit_order env i symbol amount_per_target price
    let rest := tpLoop env symbol amount_per_target avg ts (i + 1)
    (match r.1 with
     | some o => o :: rest.1
     | none => rest.1,
     r.2 ++ rest.2)

/-- An entry of the active-trades ledger (trade_executor.py, lines
148-159). -/
structure TradeRec where
  symbol : String
  base_symbol : String
  first_order : Nat
  second_order : Option Nat
  stop_loss_order : Option Nat
  take_profit_orders : List Nat
  total_amount : ℚ
  avg_entry_price : ℚ
  signal : TradingSignal
deriving DecidableEq

/-- `TradeExecutor.execute_signal` (trade_executor.py, lines 34-169),
returning the reported outcome, the updated active-trades ledger
(an association list keyed by the base symbol; insertion prepends), and
the exchange calls issued in order.  The two divisions by a
signal-controlled price model Python `ZeroDivisionError`s that the
top-level `except` turns into a `False` outcome. -/
def execute_signal (cfg : Config) (env : ExchangeEnv)
    (active_trades : List (String × TradeRec)) (signal : TradingSignal) :
    Bool × List (String × TradeRec) × List ExchCall :=
  let symbol := get_symbol signal.symbol cfg.default_quote_asset
  if (active_trades.lookup signal.symbol).isSome then
    (false, active_trades, [])
  else
    let balance := env.balance
    let tr0 := [ExchCall.getBalance cfg.default_quote_asset]
    if balance < 10 then (false, active_trades, tr0)
    else
      let position_size :=
        min (balance * (cfg.position_size_percentage / 100)) cfg.max_position_size
      let first_buy_size := position_size * (6 / 10)
      let second_buy_size := position_size * (4 / 10)
      let first_buy_price := (signal.first_buy_range.1 + signal.first_buy_range.2) / 2
      -- `first_buy_size / first_buy_price` raises ZeroDivisionError on a
      -- zero midpoint; caught by the handler, outcome False.
      if first_buy_price = 0 then (false, active_trades, tr0)
      else
        let first_buy_amount := first_buy_size / first_buy_price
        let min_order_size := env.min_order_size
        let tr1 := tr0 ++ [ExchCall.getMinOrderSize symbol]
        let first_buy_amount2 :=
          if first_buy_amount < min_order_size then min_order_size else first_buy_amount
        let first_buy_size2 :=
          if first_buy_amount < min_order_size then min_order_size * first_buy_price
          else first_buy_size
        let tr2 := tr1 ++ [ExchCall.createLimitOrder symbol "buy" first_buy_amount2 first_buy_price]
        match env.first_order with
        | none => (false, active_trades, tr2)
        | some first_order =>
          -- `second_buy_size / signal.second_buy` raises ZeroDivisionError
          -- on a zero second-buy price; caught by the handler, outcome
          -- False — after the first buy was already placed.
          if signal.second_buy = 0 then (false, active_trades, tr2)
          else
            let second_buy_amount := second_buy_size / signal.second_buy
            let second_order :=
              if min_order_size ≤ second_buy_amount then env.second_order else none
            let tr3 :=
              if min_order_size ≤ second_buy_amount then
                tr2 ++ [ExchCall.createLimitOrder symbol "buy" second_buy_amount signal.second_buy]
              else tr2
            let total_amount :=
              if second_order.isSome then first_buy_amount2 + second_buy_amount
              else first_buy_amount2
            let total_cost :=
              if second_order.isSome then first_buy_size2 + second_buy_size
              else first_buy_size2
            let avg_entry_price :=
              if total_amount > 0 then total_cost / total_amount else first_buy_price
            let slr := place_stop_loss_order env symbol total_amount signal.stop_loss
            let stop_loss_order := if cfg.enable_stop_loss then slr.1 else none
            let tr4 := if cfg.enable_stop_loss then tr3 ++ slr.2 else tr3
            let tpr :=
              tpLoop env symbol (total_amount / (signal.targets.length : ℚ))
                avg_entry_price signal.targets 0
            let take_profit_orders :=
              if cfg.enable_take_profit ∧ signal.targets ≠ [] then tpr.1 else []
            let tr5 := if cfg.enable_take_profit ∧ signal.targets ≠ [] then tr4 ++ tpr.2 else tr4
            let record : TradeRec :=
              { symbol := symbol
                base_symbol := signal.symbol
                first_order := first_order
                -- line 153: `second_order if second_buy_amount >= min_order_size
                -- else None`, which equals `second_order` here.
                second_order := second_order
                stop_loss_order := stop_loss_order
                take_profit_orders := take_profit_orders
                total_amount := total_amount
                avg_entry_price := avg_entry_price
                signal := signal }
            (true, (signal.symbol, record) :: active_trades, tr5)

/-- `TradeExecutor.get_active_trades` (trade_executor.py, lines 186-188)
at the level of ledger values; object identity is treated separately in
the object model below. -/
def get_active_trades (active_trades : List (String × TradeRec)) :
    List (String × TradeRec) :=
  active_trades

/-- Python object heap for the ledger: trade-record dicts and
symbol-to-record dicts live at addresses; a dict holds record
*addresses*, mirroring Python reference semantics. -/
structure LedgerHeap where
  recs : Nat → TradeRec
  dicts : Nat → List (String × Nat)

/-- The executor's mutable state for the object model: the heap, the
address of `self.active_trades`, and an allocation bound (every
allocated address is `< next`). -/
structure ExecState where
  heap : LedgerHeap
  active : Nat
  next : Nat

/-- `TradeExecutor.get_active_trades` in the object model:
`self.active_trades.copy()` allocates a fresh dict object holding the
same entries — and therefore the same record addresses. -/
def get_active_trades_obj (s : ExecState) : Nat × ExecState :=
  (s.next,
   { s with
     heap := { s.heap with
               dicts := Function.update s.heap.dicts s.next (s.heap.dicts s.active) }
     next := s.next + 1 })

/-- A caller mutates a dict object in place (`d[k] = a`): later entries
shadow earlier ones on lookup, like Python key assignment. -/
def dictSet (s : ExecState) (d : Nat) (k : String) (a : Nat) : ExecState :=
  { s with
    heap := { s.heap with
              dicts := Function.update s.heap.dicts d ((k, a) :: s.heap.dicts d) } }

/-- A caller mutates a trade-record object in place
(`rec[field] = value`). -/
def recUpdate (s : ExecState) (a : Nat) (r : TradeRec) : ExecState :=
  { s with heap := { s.heap with recs := Function.update s.heap.recs a r } }

/-- What the ledger's internal state maps a symbol to. -/
def ledgerView (s : ExecState) (k : String) : Option TradeRec :=
  ((s.heap.dicts s.active).lookup k).map s.heap.recs

/-- What a dict object (for instance a returned snapshot) maps a symbol
to. -/
def dictView (s : ExecState) (d : Nat) (k : String) : Option TradeRec :=
  ((s.heap.dicts d).lookup k).map s.heap.recs

/-- First-tranche execution price: the midpoint of the first-buy range
(trade_executor.py, line 73). -/
def midpointPrice (sig : TradingSignal) : ℚ :=
  (sig.first_buy_range.1 + sig.first_buy_range.2) / 2

/-- The position budget (trade_executor.py, lines 59-62). -/
def positionBudget (cfg : Config) (balance : ℚ) : ℚ :=
  min (balance * (cfg.position_size_percentage / 100)) cfg.max_position_size

/-- The exchange-formatted symbol used by the executor. -/
def exchSymbol (cfg : Config) (sig : TradingSignal) : String :=
  get_symbol sig.symbol cfg.default_quote_asset

/-- First-tranche base amount before the minimum-size floor (line 74). -/
def firstAmountRaw (cfg : Config) (env : ExchangeEnv) (sig : TradingSignal) : ℚ :=
  positionBudget cfg env.balance * (6 / 10) / midpointPrice sig

/-- First-tranche base amount after the minimum-size floor (lines 78-80). -/
def firstAmountSized (cfg : Config) (env : ExchangeEnv) (sig : TradingSignal) : ℚ :=
  if firstAmountRaw cfg env sig < env.min_order_size then env.min_order_size
  else firstAmountRaw cfg env sig

/-- First-tranche quote cost after the floor recomputation (line 81). -/
def firstCostSized (cfg : Config) (env : ExchangeEnv) (sig : TradingSignal) : ℚ :=
  if firstAmountRaw cfg env sig < env.min_order_size then
    env.min_order_size * midpointPrice sig
  else positionBudget cfg env.balance * (6 / 10)

/-- Second-tranche base amount (line 101). -/
def secondAmount (cfg : Config) (env : ExchangeEnv) (sig : TradingSignal) : ℚ :=
  positionBudget cfg env.balance * (4 / 10) / sig.second_buy

/-- The second-buy order reference: placed only when the amount meets the
minimum order size (lines 103-110). -/
def secondOrderResult (cfg : Config) (env : ExchangeEnv) (sig : TradingSignal) : Option Nat :=
  if env.min_order_size ≤ secondAmount cfg env sig then env.second_order else none

/-- Total filled base amount over the tranches that succeeded (lines
97, 112-113). -/
def totalAmountOut (cfg : Config) (env : ExchangeEnv) (sig : TradingSignal) : ℚ :=
  if (secondOrderResult cfg env sig).isSome then
    firstAmountSized cfg env sig + secondAmount cfg env sig
  else firstAmountSized cfg env sig

/-- Total quote cost over the tranches that succeeded (lines 98, 114). -/
def totalCostOut (cfg : Config) (env : ExchangeEnv) (sig : TradingSignal) : ℚ :=
  if (secondOrderResult cfg env sig).isSome then
    firstCostSized cfg env sig + positionBudget cfg env.balance * (4 / 10)
  else firstCostSized cfg env sig

/-- Recorded average entry price (line 117). -/
def avgEntryOut (cfg : Config) (env : ExchangeEnv) (sig : TradingSignal) : ℚ :=
  if totalAmountOut cfg env sig > 0 then totalCostOut cfg env sig / totalAmountOut cfg env sig
  else midpointPrice sig

/-- Stop-loss placement result of a successful execution (lines 119-127). -/
def stopResult (cfg : Config) (env : ExchangeEnv) (sig : TradingSignal) :
    Option Nat × List ExchCall :=
  place_stop_loss_order env (exchSymbol cfg sig) (totalAmountOut cfg env sig) sig.stop_loss

/-- Take-profit placement results of a successful execution (lines 129-146). -/
def tpResult (cfg : Config) (env : ExchangeEnv) (sig : TradingSignal) :
    List Nat × List ExchCall :=
  tpLoop env (exchSymbol cfg sig) (totalAmountOut cfg env sig / (sig.targets.length : ℚ))
    (avgEntryOut cfg env sig) sig.targets 0

/-- The ledger record written by a successful execution (lines 148-159). -/
def successRecord (cfg : Config) (env : ExchangeEnv) (sig : TradingSignal) (o : Nat) :
    TradeRec :=
  { symbol := exchSymbol cfg sig
    base_symbol := sig.symbol
    first_order := o
    second_order := secondOrderResult cfg env sig
    stop_loss_order := if cfg.enable_stop_loss then (stopResult cfg env sig).1 else none
    take_profit_orders :=
      if cfg.enable_take_profit ∧ sig.targets ≠ [] then (tpResult cfg env sig).1 else []
    total_amount := totalAmountOut cfg env sig
    avg_entry_price := avgEntryOut cfg env sig
    signal := sig }

/-- The exchange calls issued by a successful execution, in order. -/
def successTrace (cfg : Config) (env : ExchangeEnv) (sig : TradingSignal) : List ExchCall :=
  let tr2 := [ExchCall.getBalance cfg.default_quote_asset,
              ExchCall.getMinOrderSize (exchSymbol cfg sig),
              ExchCall.createLimitOrder (exchSymbol cfg sig) "buy"
                (firstAmountSized cfg env sig) (midpointPrice sig)]
  let tr3 :=
    if env.min_order_size ≤ secondAmount cfg env sig then
      tr2 ++ [ExchCall.createLimitOrder (exchSymbol cfg sig) "buy"
                (secondAmount cfg env sig) sig.second_buy]
    else tr2
  let tr4 := if cfg.enable_stop_loss then tr3 ++ (stopResult cfg env sig).2 else tr3
  if cfg.enable_take_profit ∧ sig.targets ≠ [] then tr4 ++ (tpResult cfg env sig).2 else tr4

/-- The calls issued up to and including the first buy. -/
def firstBuyTrace (cfg : Config) (env : ExchangeEnv) (sig : TradingSignal) : List ExchCall :=
  [ExchCall.getBalance cfg.default_quote_asset,
   ExchCall.getMinOrderSize (exchSymbol cfg sig),
   ExchCall.createLimitOrder (exchSymbol cfg sig) "buy"
     (firstAmountSized cfg env sig) (midpointPrice sig)]


/-- A buy-side limit order, as issued only by the two entry tranches. -/
def isBuyCall : ExchCall → Bool
  | ExchCall.createLimitOrder _ side _ _ => side == "buy"
  | _ => false

/-- Concrete configuration used by witnesses and counterexamples. -/
def cfgW : Config :=
  { default_quote_asset := "USDT", max_position_size := 100,
    position_size_percentage := 10, enable_stop_loss := true, enable_take_profit := true }

/-- Concrete exchange responses: ample balance, no minimum, first buy
succeeds, everything afterwards fails. -/
def envW : ExchangeEnv :=
  { balance := 1000, min_order_size := 0, first_order := some 1, second_order := none,
    stop_attempt := none, stop_fallback := none, tp_order := fun _ => none }

/-- A concrete well-formed signal. -/
def sigW : TradingSignal :=
  { symbol := "ABC", first_buy_range := (1, 3), second_buy := 1, cmp := 1,
    targets := [5], stop_loss := 1 }

/-- The signal of `sigW` with a *zero* second-buy price. -/
def sigZ : TradingSignal :=
  { symbol := "ABC", first_buy_range := (1, 3), second_buy := 0, cmp := 1,
    targets := [5], stop_loss := 1 }

/-- A concrete ledger record occupying the slot of symbol `ABC`. -/
def recW : TradeRec :=
  { symbol := "ABC/USDT", base_symbol := "ABC", first_order := 1, second_order := none,
    stop_loss_order := none, take_profit_orders := [], total_amount := 1,
    avg_entry_price := 1, signal := sigW }

/-- Exchange responses with a minimum order size of 40: floors the first
tranche (raw amount 30) while the second tranche (amount 40) still meets
the minimum. -/
def envF : ExchangeEnv :=
  { balance := 1000, min_order_size := 40, first_order := some 1, second_order := some 2,
    stop_attempt := none, stop_fallback := none, tp_order := fun _ => none }

/-- Exchange responses with a minimum order size of 50: the second
tranche (amount 40) falls below the minimum and is skipped. -/
def envS : ExchangeEnv :=
  { balance := 1000, min_order_size := 50, first_order := some 1, second_order := some 2,
    stop_attempt := none, stop_fallback := none, tp_order := fun _ => none }

/-- Concrete signal for the object-model ledger. -/
def sigC9 : TradingSignal :=
  { symbol := "LSK", first_buy_range := (1, 2), second_buy := 1, cmp := 1,
    targets := [], stop_loss := 1 }

/-- The record stored at address 0 of the object model. -/
def recC9a : TradeRec :=
  { symbol := "LSK/USDT", base_symbol := "LSK", first_order := 1, second_order := none,
    stop_loss_order := none, take_profit_orders := [], total_amount := 100,
    avg_entry_price := 1, signal := sigC9 }

/-- The same record after a caller mutates its total amount in place. -/
def recC9b : TradeRec :=
  { symbol := "LSK/USDT", base_symbol := "LSK", first_order := 1, second_order := none,
    stop_loss_order := none, take_profit_orders := [], total_amount := 999,
    avg_entry_price := 1, signal := sigC9 }

/-- Concrete heap: the active-trades dict lives at address 0 and maps
`LSK` to the record at address 0. -/
def heapC9 : LedgerHeap :=
  { recs := fun _ => recC9a, dicts := fun _ => [("LSK", 0)] }

/-- Concrete executor state for the object model. -/
def stC9 : ExecState := { heap := heapC9, active := 0, next := 1 }

theorem takeWhileSplit_append (p : Char → Bool) (l : List Char) :
    (takeWhileSplit p l).1 ++ (takeWhileSplit p l).2 = l := by
  induction l with
  | nil => rfl
  | cons c cs ih =>
    by_cases h : p c <;> simp [takeWhileSplit, h, ih]

theorem execute_signal_success (cfg : Config) (env : ExchangeEnv)
    (st : List (String × TradeRec)) (sig : TradingSignal)
    (hdup : st.lookup sig.symbol = none) (hbal : ¬ env.balance < 10)
    (hfbp : midpointPrice sig ≠ 0) (o : Nat) (ho : env.first_order = some o)
    (hsb : sig.second_buy ≠ 0) :
    execute_signal cfg env st sig =
      (true, (sig.symbol, successRecord cfg env sig o) :: st,
       successTrace cfg env sig) := by
  have hfbp2 : (sig.first_buy_range.1 + sig.first_buy_range.2) / 2 ≠ 0 := hfbp
  simp only [execute_signal, successRecord, successTrace, midpointPrice, positionBudget,
    exchSymbol, get_symbol, firstAmountRaw, firstAmountSized, firstCostSized, secondAmount,
    secondOrderResult, totalAmountOut, totalCostOut, avgEntryOut, stopResult, tpResult,
    hdup, ho, Option.isSome_none, Bool.false_eq_true, if_false, if_neg hbal, if_neg hfbp2,
    if_neg hsb, List.append_assoc, List.cons_append, List.nil_append]

theorem execute_signal_duplicate (cfg : Config) (env : ExchangeEnv)
    (st : List (String × TradeRec)) (sig : TradingSignal)
    (h : (st.lookup sig.symbol).isSome) :
    execute_signal cfg env st sig = (false, st, []) := by
  unfold execute_signal
  simp [h]

theorem execute_signal_lowbal (cfg : Config) (env : ExchangeEnv)
    (st : List (String × TradeRec)) (sig : TradingSignal)
    (hdup : st.lookup sig.symbol = none) (hbal : env.balance < 10) :
    execute_signal cfg env st sig =
      (false, st, [ExchCall.getBalance cfg.default_quote_asset]) := by
  unfold execute_signal
  simp [hdup, hbal]

theorem execute_signal_zero_mid (cfg : Config) (env : ExchangeEnv)
    (st : List (String × TradeRec)) (sig : TradingSignal)
    (hdup : st.lookup sig.symbol = none) (hbal : ¬ env.balance < 10)
    (hfbp : midpointPrice sig = 0) :
    execute_signal cfg env st sig =
      (false, st, [ExchCall.getBalance cfg.default_quote_asset]) := by
  have hfbp2 : (sig.first_buy_range.1 + sig.first_buy_range.2) / 2 = 0 := hfbp
  unfold execute_signal
  simp [hdup, hbal, hfbp2]

theorem execute_signal_first_none_trace (cfg : Config) (env : ExchangeEnv)
    (st : List (String × TradeRec)) (sig : TradingSignal)
    (hdup : st.lookup sig.symbol = none) (hbal : ¬ env.balance < 10)
    (hfbp : midpointPrice sig ≠ 0) (hfo : env.first_order = none) :
    execute_signal cfg env st sig = (false, st, firstBuyTrace cfg env sig) := by
  have hfbp2 : (sig.first_buy_range.1 + sig.first_buy_range.2) / 2 ≠ 0 := hfbp
  simp only [execute_signal, firstBuyTrace, exchSymbol, get_symbol, firstAmountSized,
    firstAmountRaw, midpointPrice, positionBudget, hdup, hfo,
    Option.isSome_none, Bool.false_eq_true, if_false, if_neg hbal, if_neg hfbp2,
    List.append_assoc, List.cons_append, List.nil_append]

theorem execute_signal_zero_second (cfg : Config) (env : ExchangeEnv)
    (st : List (String × TradeRec)) (sig : TradingSignal)
    (hdup : st.lookup sig.symbol = none) (hbal : ¬ env.balance < 10)
    (hfbp : midpointPrice sig ≠ 0) (o : Nat) (ho : env.first_order = some o)
    (hsb : sig.second_buy = 0) :
    execute_signal cfg env st sig = (false, st, firstBuyTrace cfg env sig) := by
  have hfbp2 : (sig.first_buy_range.1 + sig.first_buy_range.2) / 2 ≠ 0 := hfbp
  simp only [execute_signal, firstBuyTrace, exchSymbol, get_symbol, firstAmountSized,
    firstAmountRaw, midpointPrice, positionBudget, hdup, ho,
    Option.isSome_none, Bool.false_eq_true, if_false, if_neg hbal, if_neg hfbp2, if_pos hsb,
    List.append_assoc, List.cons_append, List.nil_append]

theorem execute_signal_first_none (cfg : Config) (env : ExchangeEnv)
    (st : List (String × TradeRec)) (sig : TradingSignal)
    (hfo : env.first_order = none) :
    (execute_signal cfg env st sig).1 = false
    ∧ (execute_signal cfg env st sig).2.1 = st := by
  by_cases hdup : (st.lookup sig.symbol).isSome
  · rw [execute_signal_duplicate cfg env st sig hdup]
    exact ⟨rfl, rfl⟩
  · have hdup2 : st.lookup sig.symbol = none := Option.not_isSome_iff_eq_none.mp hdup
    by_cases hbal : env.balance < 10
    · rw [execute_signal_lowbal cfg env st sig hdup2 hbal]
      exact ⟨rfl, rfl⟩
    · by_cases hfbp : midpointPrice sig = 0
      · rw [execute_signal_zero_mid cfg env st sig hdup2 hbal hfbp]
        exact ⟨rfl, rfl⟩
      · rw [execute_signal_first_none_trace cfg env st sig hdup2 hbal hfbp hfo]
        exact ⟨rfl, rfl⟩

theorem reSearch_eq_some {α : Type} {m : List Char → Option α} :
    ∀ {l : List Char} {a : α}, reSearch m l = some a → ∃ l2, l2 <:+ l ∧ m l2 = some a := by
  intro l
  induction l with
  | nil => exact fun h => ⟨[], List.suffix_refl [], h⟩
  | cons c cs ih =>
    intro a h
    unfold reSearch at h
    cases hm : m (c :: cs) with
    | some b =>
      rw [hm] at h
      simp only [Option.orElse] at h
      exact ⟨c :: cs, List.suffix_refl _, hm.trans h⟩
    | none =>
      rw [hm] at h
      simp only [Option.orElse] at h
      obtain ⟨l2, hsuf, hm2⟩ := ih h
      exact ⟨l2, hsuf.trans (List.suffix_cons c cs), hm2⟩

theorem reSearch_isSome_of_suffix {α : Type} {m : List Char → Option α} :
    ∀ {l l2 : List Char}, l2 <:+ l → (m l2).isSome → (reSearch m l).isSome := by
  intro l
  induction l with
  | nil =>
    intro l2 hsuf hm
    rw [List.suffix_nil.mp hsuf] at hm
    exact hm
  | cons c cs ih =>
    intro l2 hsuf hm
    unfold reSearch
    rcases List.suffix_cons_iff.mp hsuf with heq | hsuf2
    · subst heq
      cases hc : m (c :: cs) with
      | some b => simp [Option.orElse]
      | none => rw [hc] at hm; exact absurd hm (by simp)
    · cases hc : m (c :: cs) with
      | some b => simp [Option.orElse]
      | none => simpa [Option.orElse] using ih hsuf2 hm

theorem matchLitCI_suffix :
    ∀ {w l r : List Char}, matchLitCI w l = some r → r <:+ l := by
  intro w
  induction w with
  | nil =>
    intro l r h
    unfold matchLitCI at h
    cases h
    exact List.suffix_refl _
  | cons x ws ih =>
    intro l r h
    cases l with
    | nil => cases h
    | cons c cs =>
      simp only [matchLitCI] at h
      by_cases hc : c.toLower = x.toLower
      · rw [if_pos hc] at h
        exact (ih h).trans (List.suffix_cons c cs)
      · rw [if_neg hc] at h
        cases h

theorem matchClassPlus_suffix {p : Char → Bool} {l : List Char}
    {r : List Char × List Char} (h : matchClassPlus p l = some r) : r.2 <:+ l := by
  unfold matchClassPlus at h
  by_cases he : (takeWhileSplit p l).1 = []
  · rw [if_pos he] at h; cases h
  · rw [if_neg he] at h
    cases h
    exact ⟨(takeWhileSplit p l).1, takeWhileSplit_append p l⟩

theorem matchFirstBuyAt_buying {l : List Char} {g : List Char × List Char}
    (h : matchFirstBuyAt l = some g) :
    ∃ l2, l2 <:+ l ∧ (matchLitCI (lit "buying") l2).isSome := by
  unfold matchFirstBuyAt at h
  simp only [Option.bind_eq_some, Option.map_eq_some'] at h
  obtain ⟨l1, h1, r1, h2, l2, h3, -⟩ := h
  exact ⟨r1.2, ((matchClassPlus_suffix h2).trans (matchLitCI_suffix h1)), by rw [h3]; rfl⟩

/-- C10: every message `parse_message` accepts is accepted by the
`is_signal_message` pre-filter: a successful parse needs a
dollar-prefixed symbol, a `first buying` label (hence the word
`buying`), and a well-formed `sl` number, which together satisfy the
pre-filter condition. -/
theorem C10_prefilter_no_false_negative (s : String) (sig : TradingSignal)
    (h : parse_message s = some sig) : is_signal_message s = true := by
  unfold parse_message at h
  simp only [Option.bind_eq_some, Option.map_eq_some'] at h
  obtain ⟨symG, hsym, fb, hfb, q1, hq1, q2, hq2, sbg, hsbg, q3, hq3, cmpg, hcmp, q4, hq4,
    slg, hsl, q5, hq5, -⟩ := h
  have hbuying : (reSearch (matchLitCI (lit "buying")) s.data).isSome := by
    obtain ⟨l1, hsuf, hm⟩ := reSearch_eq_some hfb
    obtain ⟨l2, hsuf2, hsome⟩ := matchFirstBuyAt_buying hm
    exact reSearch_isSome_of_suffix (hsuf2.trans hsuf) hsome
  unfold is_signal_message
  simp [hsym, hsl, hbuying]

/-- C7 (amended): a signal is returned only when symbol, first-buy
range, second-buy price, CMP and stop-loss extraction all succeed (no
partial signal), and its targets come out sorted ascending with
duplicates retained — but the targets list may be *empty*: when no
percentage occurs in the text, the code leaves `targets = []` and still
returns the signal. -/
theorem C7_parse_all_or_nothing_sorted (s : String) (sig : TradingSignal)
    (h : parse_message s = some sig) :
    sig.targets.Sorted (fun a b => a ≤ b)
    ∧ (reSearch matchSymbolAt s.data).isSome
    ∧ (reSearch matchFirstBuyAt s.data).isSome
    ∧ (reSearch matchSecondBuyAt s.data).isSome
    ∧ (reSearch matchCmpAt s.data).isSome
    ∧ (reSearch matchSlAt s.data).isSome := by
  unfold parse_message at h
  simp only [Option.bind_eq_some, Option.map_eq_some'] at h
  obtain ⟨symG, hsym, fb, hfb, q1, hq1, q2, hq2, sbg, hsbg, q3, hq3, cmpg, hcmp, q4, hq4,
    slg, hsl, q5, hq5, heq⟩ := h
  refine ⟨?_, by rw [hsym]; rfl, by rw [hfb]; rfl, by rw [hsbg]; rfl,
    by rw [hcmp]; rfl, by rw [hsl]; rfl⟩
  rw [← heq]
  exact List.sorted_insertionSort _ _

set_option maxHeartbeats 4000000

/-- C7 counterexample: this message parses successfully although it
contains no percentage at all, so the returned signal has an *empty*
targets list — refuting the claim that a returned signal always carries
a non-empty targets list (and with it the claim that extraction of a
non-empty set of target percentages must succeed for a signal to be
returned). -/
theorem C7_counterexample :
    (parse_message "$A first buying:1-2 second buying:3 cmp:4 sl:5").map
        TradingSignal.targets = some [] := by
  simp +decide [parse_message, reSearch, matchSymbolAt, matchFirstBuyAt, matchSecondBuyAt,
    matchCmpAt, matchSlAt, matchPctAt, matchLitCI, matchClassPlus, takeWhileSplit, lit,
    isSpaceCh, isNumCh, isColonSpace, isDashSpace, isSymCh, isTgtCh, isColonNl,
    floatOfChars, digitsVal, findallPct, matchTargetsSectionAt, matchSpaceColonGroup,
    trySpaceRunAux, matchColonGroup, tryColonRunAux, List.insertionSort, List.orderedInsert,
    Option.orElse]

/-- Witness for C7: the amended theorem applied to a concrete parseable
message with out-of-order target percentages. -/
theorem C7_witness :
    parse_message "$A first buying:1-2 second buying:3 cmp:4 sl:5 targets: 15% 5% 10%" =
      some { symbol := "A", first_buy_range := (1, 2), second_buy := 3, cmp := 4,
             targets := [5, 10, 15], stop_loss := 5 }
    ∧ ([5, 10, 15] : List ℚ).Sorted (fun a b => a ≤ b) := by
  have hp : parse_message "$A first buying:1-2 second buying:3 cmp:4 sl:5 targets: 15% 5% 10%" =
      some { symbol := "A", first_buy_range := (1, 2), second_buy := 3, cmp := 4,
             targets := [5, 10, 15], stop_loss := 5 } := by
    simp +decide [parse_message, reSearch, matchSymbolAt, matchFirstBuyAt, matchSecondBuyAt,
      matchCmpAt, matchSlAt, matchPctAt, matchLitCI, matchClassPlus, takeWhileSplit, lit,
      isSpaceCh, isNumCh, isColonSpace, isDashSpace, isSymCh, isTgtCh, isColonNl,
      floatOfChars, digitsVal, findallPct, matchTargetsSectionAt, matchSpaceColonGroup,
      trySpaceRunAux, matchColonGroup, tryColonRunAux, List.insertionSort, List.orderedInsert,
      Option.orElse]
  exact ⟨hp, (C7_parse_all_or_nothing_sorted _ _ hp).1⟩

/-- Witness for C10: a concrete parseable message is accepted by the
pre-filter. -/
theorem C10_witness :
    is_signal_message "go $BTC first buying 2-3 second buying 1 cmp 2 sl 1" = true := by
  have hp : parse_message "go $BTC first buying 2-3 second buying 1 cmp 2 sl 1" =
      some { symbol := "BTC", first_buy_range := (2, 3), second_buy := 1, cmp := 2,
             targets := [], stop_loss := 1 } := by
    simp +decide [parse_message, reSearch, matchSymbolAt, matchFirstBuyAt, matchSecondBuyAt,
      matchCmpAt, matchSlAt, matchPctAt, matchLitCI, matchClassPlus, takeWhileSplit, lit,
      isSpaceCh, isNumCh, isColonSpace, isDashSpace, isSymCh, isTgtCh, isColonNl,
      floatOfChars, digitsVal, findallPct, matchTargetsSectionAt, matchSpaceColonGroup,
      trySpaceRunAux, matchColonGroup, tryColonRunAux, List.insertionSort, List.orderedInsert,
      Option.orElse]
  exact C10_prefilter_no_false_negative _ _ hp

/-- C1 (amended): a trade record is written iff the mandatory first buy
succeeded, *provided the signal's second-buy price is nonzero*.  A failed
first buy gives a failure outcome with the ledger unchanged; a
successful first buy commits a record regardless of the second-buy,
stop-loss and take-profit outcomes, which are arbitrary in `env`.  (With
a zero second-buy price the second-tranche sizing division raises, the
top-level handler returns failure, and no record is written even though
the first buy succeeded — see the counterexample.) -/
theorem C1_commit_iff_first_buy (cfg : Config) (env : ExchangeEnv)
    (st : List (String × TradeRec)) (sig : TradingSignal)
    (hsb : sig.second_buy ≠ 0) :
    (env.first_order = none →
      (execute_signal cfg env st sig).1 = false
      ∧ (execute_signal cfg env st sig).2.1 = st)
    ∧ (st.lookup sig.symbol = none → ¬ env.balance < 10 → midpointPrice sig ≠ 0 →
       ∀ o, env.first_order = some o →
         (execute_signal cfg env st sig).1 = true
         ∧ (execute_signal cfg env st sig).2.1 =
             (sig.symbol, successRecord cfg env sig o) :: st) := by
  constructor
  · exact fun hfo => execute_signal_first_none cfg env st sig hfo
  · intro hdup hbal hfbp o ho
    rw [execute_signal_success cfg env st sig hdup hbal hfbp o ho hsb]
    exact ⟨rfl, rfl⟩

/-- C1 counterexample: the first buy is attempted (its order call with
amount 30 at price 2 is in the trace) and succeeds (`first_order = some
1`), yet because the signal's second-buy price is zero the outcome is
failure and the ledger stays empty — refuting "if the first buy
succeeds, a record is written regardless of the outcome of the second
buy, stop-loss, and take-profit steps". -/
theorem C1_counterexample :
    envW.first_order = some 1
    ∧ (execute_signal cfgW envW [] sigZ).1 = false
    ∧ (execute_signal cfgW envW [] sigZ).2.1 = []
    ∧ ExchCall.createLimitOrder "ABC/USDT" "buy" 30 2
        ∈ (execute_signal cfgW envW [] sigZ).2.2 := by
  refine ⟨rfl, ?_⟩
  have h := execute_signal_zero_second cfgW envW [] sigZ rfl (by norm_num [envW])
    (by norm_num [midpointPrice, sigZ]) 1 rfl rfl
  rw [h]
  refine ⟨rfl, rfl, ?_⟩
  have h2 : firstAmountSized cfgW envW sigZ = 30 := by
    norm_num [firstAmountSized, firstAmountRaw, positionBudget, midpointPrice, min_def,
      cfgW, envW, sigZ]
  have h3 : midpointPrice sigZ = 2 := by norm_num [midpointPrice, sigZ]
  have h4 : exchSymbol cfgW sigZ = "ABC/USDT" := rfl
  simp [firstBuyTrace, h2, h3, h4]

/-- Witness for C1: with a nonzero second-buy price and a successful
first buy, the outcome is success and the record is committed. -/
theorem C1_witness :
    (execute_signal cfgW envW [] sigW).1 = true
    ∧ (execute_signal cfgW envW [] sigW).2.1 = [("ABC", successRecord cfgW envW sigW 1)] :=
  (C1_commit_iff_first_buy cfgW envW [] sigW (by norm_num [sigW])).2
    rfl (by norm_num [envW]) (by norm_num [midpointPrice, sigW]) 1 rfl

/-- C2: an already-active symbol makes `execute_signal` fail
immediately: the ledger is unchanged and no exchange call at all is
issued (the empty trace excludes balance query, minimum-order-size query
and every order placement). -/
theorem C2_duplicate_guard (cfg : Config) (env : ExchangeEnv)
    (st : List (String × TradeRec)) (sig : TradingSignal)
    (h : (st.lookup sig.symbol).isSome) :
    execute_signal cfg env st sig = (false, st, []) :=
  execute_signal_duplicate cfg env st sig h

/-- Witness for C2: a ledger already holding `ABC` rejects a second
`ABC` signal with no calls. -/
theorem C2_witness :
    (([("ABC", recW)] : List (String × TradeRec)).lookup "ABC").isSome = true
    ∧ execute_signal cfgW envW [("ABC", recW)] sigW = (false, [("ABC", recW)], []) :=
  ⟨rfl, C2_duplicate_guard cfgW envW [("ABC", recW)] sigW (by rfl)⟩

theorem firstBuy_mem_successTrace (cfg : Config) (env : ExchangeEnv) (sig : TradingSignal) :
    ExchCall.createLimitOrder (exchSymbol cfg sig) "buy" (firstAmountSized cfg env sig)
        (midpointPrice sig) ∈ successTrace cfg env sig := by
  simp only [successTrace]
  split_ifs <;> simp

theorem secondBuy_mem_successTrace (cfg : Config) (env : ExchangeEnv) (sig : TradingSignal)
    (h : env.min_order_size ≤ secondAmount cfg env sig) :
    ExchCall.createLimitOrder (exchSymbol cfg sig) "buy" (secondAmount cfg env sig)
        sig.second_buy ∈ successTrace cfg env sig := by
  simp only [successTrace, if_pos h]
  split_ifs <;> simp

/-- C4: with the duplicate guard clear, a balance below 10 is rejected
with the balance query as the only exchange call (so before any order);
otherwise the position budget is `min(balance × pct/100,
maxPositionSize)` and the tranche split is exactly 60/40 of it: the
first buy order (in the unfloored case) carries `budget × 6/10`
converted at the midpoint price, and the second buy order, when
attempted, carries `budget × 4/10` at the second-buy price. -/
theorem C4_position_sizing (cfg : Config) (env : ExchangeEnv)
    (st : List (String × TradeRec)) (sig : TradingSignal)
    (hdup : st.lookup sig.symbol = none) :
    (env.balance < 10 →
      execute_signal cfg env st sig =
        (false, st, [ExchCall.getBalance cfg.default_quote_asset]))
    ∧ (¬ env.balance < 10 → midpointPrice sig ≠ 0 →
        ¬ firstAmountRaw cfg env sig < env.min_order_size →
        ExchCall.createLimitOrder (exchSymbol cfg sig) "buy"
            (positionBudget cfg env.balance * (6 / 10) / midpointPrice sig)
            (midpointPrice sig)
          ∈ (execute_signal cfg env st sig).2.2
        ∧ (sig.second_buy ≠ 0 → env.min_order_size ≤ secondAmount cfg env sig →
            ∀ o, env.first_order = some o →
            ExchCall.createLimitOrder (exchSymbol cfg sig) "buy"
                (positionBudget cfg env.balance * (4 / 10) / sig.second_buy) sig.second_buy
              ∈ (execute_signal cfg env st sig).2.2)) := by
  constructor
  · exact fun hbal => execute_signal_lowbal cfg env st sig hdup hbal
  · intro hbal hfbp hfloor
    have hsz : firstAmountSized cfg env sig =
        positionBudget cfg env.balance * (6 / 10) / midpointPrice sig := by
      rw [firstAmountSized, if_neg hfloor, firstAmountRaw]
    constructor
    · cases hfo : env.first_order with
      | none =>
        rw [execute_signal_first_none_trace cfg env st sig hdup hbal hfbp hfo]
        simp [firstBuyTrace, hsz]
      | some o =>
        by_cases hsb : sig.second_buy = 0
        · rw [execute_signal_zero_second cfg env st sig hdup hbal hfbp o hfo hsb]
          simp [firstBuyTrace, hsz]
        · rw [execute_signal_success cfg env st sig hdup hbal hfbp o hfo hsb]
          rw [← hsz]
          exact firstBuy_mem_successTrace cfg env sig
    · intro hsb hsecond o hfo
      rw [execute_signal_success cfg env st sig hdup hbal hfbp o hfo hsb]
      have h2 : secondAmount cfg env sig =
          positionBudget cfg env.balance * (4 / 10) / sig.second_buy := rfl
      rw [← h2]
      exact secondBuy_mem_successTrace cfg env sig hsecond

/-- Witness for C4: concrete unfloored execution placing both tranche
orders. -/
theorem C4_witness :
    ExchCall.createLimitOrder (exchSymbol cfgW sigW) "buy"
        (positionBudget cfgW envW.balance * (6 / 10) / midpointPrice sigW) (midpointPrice sigW)
      ∈ (execute_signal cfgW envW [] sigW).2.2
    ∧ ExchCall.createLimitOrder (exchSymbol cfgW sigW) "buy"
        (positionBudget cfgW envW.balance * (4 / 10) / sigW.second_buy) sigW.second_buy
      ∈ (execute_signal cfgW envW [] sigW).2.2 := by
  have h := (C4_position_sizing cfgW envW [] sigW rfl).2 (by norm_num [envW])
    (by norm_num [midpointPrice, sigW])
    (by norm_num [firstAmountRaw, positionBudget, midpointPrice, min_def, cfgW, envW, sigW])
  exact ⟨h.1, h.2 (by norm_num [sigW])
    (by norm_num [secondAmount, positionBudget, min_def, cfgW, envW, sigW]) 1 rfl⟩

/-- C5: when the first-tranche base amount falls below the minimum order
size, the placed first-buy amount is exactly the minimum, the
first-tranche quote cost is recomputed as `minimum × midpoint price`,
and the extra cost is not re-subtracted: the second tranche still
carries `budget × 4/10`, and the recorded total amount counts the floored
minimum for the first tranche. -/
theorem C5_first_tranche_floor (cfg : Config) (env : ExchangeEnv)
    (st : List (String × TradeRec)) (sig : TradingSignal)
    (hdup : st.lookup sig.symbol = none) (hbal : ¬ env.balance < 10)
    (hfbp : midpointPrice sig ≠ 0)
    (hfloor : firstAmountRaw cfg env sig < env.min_order_size) :
    ExchCall.createLimitOrder (exchSymbol cfg sig) "buy" env.min_order_size
        (midpointPrice sig)
      ∈ (execute_signal cfg env st sig).2.2
    ∧ firstCostSized cfg env sig = env.min_order_size * midpointPrice sig
    ∧ (sig.second_buy ≠ 0 → env.min_order_size ≤ secondAmount cfg env sig →
        ∀ o, env.first_order = some o →
        ExchCall.createLimitOrder (exchSymbol cfg sig) "buy"
            (positionBudget cfg env.balance * (4 / 10) / sig.second_buy) sig.second_buy
          ∈ (execute_signal cfg env st sig).2.2)
    ∧ (∀ o, env.first_order = some o → sig.second_buy ≠ 0 →
        (execute_signal cfg env st sig).2.1 = (sig.symbol, successRecord cfg env sig o) :: st
        ∧ (successRecord cfg env sig o).total_amount =
            (if (secondOrderResult cfg env sig).isSome then
              env.min_order_size + secondAmount cfg env sig
             else env.min_order_size)) := by
  have hsz : firstAmountSized cfg env sig = env.min_order_size := by
    rw [firstAmountSized, if_pos hfloor]
  refine ⟨?_, by rw [firstCostSized, if_pos hfloor], ?_, ?_⟩
  · cases hfo : env.first_order with
    | none =>
      rw [execute_signal_first_none_trace cfg env st sig hdup hbal hfbp hfo]
      simp [firstBuyTrace, hsz]
    | some o =>
      by_cases hsb : sig.second_buy = 0
      · rw [execute_signal_zero_second cfg env st sig hdup hbal hfbp o hfo hsb]
        simp [firstBuyTrace, hsz]
      · rw [execute_signal_success cfg env st sig hdup hbal hfbp o hfo hsb]
        rw [← hsz]
        exact firstBuy_mem_successTrace cfg env sig
  · intro hsb hsecond o hfo
    rw [execute_signal_success cfg env st sig hdup hbal hfbp o hfo hsb]
    exact secondBuy_mem_successTrace cfg env sig hsecond
  · intro o hfo hsb
    refine ⟨by rw [execute_signal_success cfg env st sig hdup hbal hfbp o hfo hsb], ?_⟩
    show totalAmountOut cfg env sig = _
    rw [totalAmountOut, hsz]

/-- Witness for C5: minimum order size 40 floors the 30-unit first
tranche to 40 while the second tranche still carries 40 % of the
budget. -/
theorem C5_witness :
    ExchCall.createLimitOrder (exchSymbol cfgW sigW) "buy" envF.min_order_size
        (midpointPrice sigW)
      ∈ (execute_signal cfgW envF [] sigW).2.2
    ∧ firstCostSized cfgW envF sigW = envF.min_order_size * midpointPrice sigW
    ∧ ExchCall.createLimitOrder (exchSymbol cfgW sigW) "buy"
        (positionBudget cfgW envF.balance * (4 / 10) / sigW.second_buy) sigW.second_buy
      ∈ (execute_signal cfgW envF [] sigW).2.2 := by
  have h := C5_first_tranche_floor cfgW envF [] sigW rfl (by norm_num [envF])
    (by norm_num [midpointPrice, sigW])
    (by norm_num [firstAmountRaw, positionBudget, midpointPrice, min_def, cfgW, envF, sigW])
  exact ⟨h.1, h.2.1, h.2.2.1 (by norm_num [sigW])
    (by norm_num [secondAmount, positionBudget, min_def, cfgW, envF, sigW]) 1 rfl⟩

theorem place_stop_loss_order_no_buys (env : ExchangeEnv) (symbol : String)
    (amount stop_price : ℚ) :
    ((place_stop_loss_order env symbol amount stop_price).2.countP isBuyCall) = 0 := by
  unfold place_stop_loss_order
  cases env.stop_attempt <;> simp +decide [isBuyCall]

theorem tpLoop_no_buys (env : ExchangeEnv) (symbol : String) (apt avg : ℚ) :
    ∀ (ts : List ℚ) (i : Nat), ((tpLoop env symbol apt avg ts i).2.countP isBuyCall) = 0 := by
  intro ts
  induction ts with
  | nil => intro i; rfl
  | cons t ts ih =>
    intro i
    simp +decide [tpLoop, place_take_profit_order, List.countP_append, List.countP_cons,
      isBuyCall, ih]

theorem successTrace_buy_count (cfg : Config) (env : ExchangeEnv) (sig : TradingSignal) :
    (successTrace cfg env sig).countP isBuyCall =
      (if env.min_order_size ≤ secondAmount cfg env sig then 2 else 1) := by
  simp only [successTrace]
  split_ifs <;>
    simp +decide [List.countP_append, List.countP_cons, isBuyCall,
      place_stop_loss_order_no_buys, tpLoop_no_buys, stopResult, tpResult]

/-- C6: a second-tranche amount below the minimum order size is skipped
outright (only one buy-side order is ever issued, so it is not floored
to the minimum), the execution still succeeds, and the record counts
only the first tranche: no second-order reference, total amount equal to
the sized first amount, and average entry price computed from the first
tranche alone. -/
theorem C6_second_tranche_skip (cfg : Config) (env : ExchangeEnv)
    (st : List (String × TradeRec)) (sig : TradingSignal)
    (hdup : st.lookup sig.symbol = none) (hbal : ¬ env.balance < 10)
    (hfbp : midpointPrice sig ≠ 0) (hsb : sig.second_buy ≠ 0)
    (o : Nat) (ho : env.first_order = some o)
    (hskip : secondAmount cfg env sig < env.min_order_size) :
    (execute_signal cfg env st sig).1 = true
    ∧ (execute_signal cfg env st sig).2.1 = (sig.symbol, successRecord cfg env sig o) :: st
    ∧ (successRecord cfg env sig o).second_order = none
    ∧ (successRecord cfg env sig o).total_amount = firstAmountSized cfg env sig
    ∧ (successRecord cfg env sig o).avg_entry_price =
        (if firstAmountSized cfg env sig > 0 then
          firstCostSized cfg env sig / firstAmountSized cfg env sig
         else midpointPrice sig)
    ∧ ((execute_signal cfg env st sig).2.2.countP isBuyCall) = 1 := by
  have hnle : ¬ env.min_order_size ≤ secondAmount cfg env sig := not_le.mpr hskip
  have hnone : secondOrderResult cfg env sig = none := by
    rw [secondOrderResult, if_neg hnle]
  have htot : totalAmountOut cfg env sig = firstAmountSized cfg env sig := by
    rw [totalAmountOut, hnone]
    rfl
  have hcost : totalCostOut cfg env sig = firstCostSized cfg env sig := by
    rw [totalCostOut, hnone]
    rfl
  rw [execute_signal_success cfg env st sig hdup hbal hfbp o ho hsb]
  refine ⟨rfl, rfl, hnone, htot, ?_, ?_⟩
  · show avgEntryOut cfg env sig = _
    rw [avgEntryOut, htot, hcost]
  · rw [successTrace_buy_count, if_neg hnle]

/-- Witness for C6: minimum order size 50 skips the 40-unit second
tranche; the trade still commits with one buy order. -/
theorem C6_witness :
    (execute_signal cfgW envS [] sigW).1 = true
    ∧ (successRecord cfgW envS sigW 1).second_order = none
    ∧ (successRecord cfgW envS sigW 1).total_amount = firstAmountSized cfgW envS sigW
    ∧ ((execute_signal cfgW envS [] sigW).2.2.countP isBuyCall) = 1 := by
  have h := C6_second_tranche_skip cfgW envS [] sigW rfl (by norm_num [envS])
    (by norm_num [midpointPrice, sigW]) (by norm_num [sigW]) 1 rfl
    (by norm_num [secondAmount, positionBudget, min_def, cfgW, envS, sigW])
  exact ⟨h.1, h.2.2.1, h.2.2.2.1, h.2.2.2.2.2⟩

theorem stopResult_mem_successTrace (cfg : Config) (env : ExchangeEnv) (sig : TradingSignal)
    (hon : cfg.enable_stop_loss = true) {c : ExchCall}
    (hc : c ∈ (stopResult cfg env sig).2) : c ∈ successTrace cfg env sig := by
  simp only [successTrace, hon, if_true]
  split_ifs <;> simp [hc]

/-- C8: with stop-loss enabled and the stop-order type rejected by the
exchange, a fallback plain limit sell at the same stop price is issued;
and when the fallback fails as well, the execution still reports success
and records the trade with no stop-loss reference. -/
theorem C8_stop_loss_fallback (cfg : Config) (env : ExchangeEnv)
    (st : List (String × TradeRec)) (sig : TradingSignal)
    (hdup : st.lookup sig.symbol = none) (hbal : ¬ env.balance < 10)
    (hfbp : midpointPrice sig ≠ 0) (hsb : sig.second_buy ≠ 0)
    (o : Nat) (ho : env.first_order = some o)
    (hon : cfg.enable_stop_loss = true) (hrej : env.stop_attempt = none) :
    ExchCall.createStopOrder (exchSymbol cfg sig) (totalAmountOut cfg env sig) sig.stop_loss
      ∈ (execute_signal cfg env st sig).2.2
    ∧ ExchCall.createLimitOrder (exchSymbol cfg sig) "sell" (totalAmountOut cfg env sig)
        sig.stop_loss ∈ (execute_signal cfg env st sig).2.2
    ∧ (env.stop_fallback = none →
        (execute_signal cfg env st sig).1 = true
        ∧ (execute_signal cfg env st sig).2.1 = (sig.symbol, successRecord cfg env sig o) :: st
        ∧ (successRecord cfg env sig o).stop_loss_order = none) := by
  have hsr : (stopResult cfg env sig).2 =
      [ExchCall.createStopOrder (exchSymbol cfg sig) (totalAmountOut cfg env sig) sig.stop_loss,
       ExchCall.createLimitOrder (exchSymbol cfg sig) "sell" (totalAmountOut cfg env sig)
         sig.stop_loss] := by
    simp only [stopResult, place_stop_loss_order, hrej]
  rw [execute_signal_success cfg env st sig hdup hbal hfbp o ho hsb]
  refine ⟨stopResult_mem_successTrace cfg env sig hon (by rw [hsr]; simp),
    stopResult_mem_successTrace cfg env sig hon (by rw [hsr]; simp), ?_⟩
  intro hfb
  refine ⟨rfl, rfl, ?_⟩
  show (if cfg.enable_stop_loss then (stopResult cfg env sig).1 else none) = none
  rw [if_pos hon]
  simp only [stopResult, place_stop_loss_order, hrej]
  exact hfb

/-- Witness for C8: stop attempt rejected, fallback also fails, trade
still committed with success. -/
theorem C8_witness :
    ExchCall.createStopOrder (exchSymbol cfgW sigW) (totalAmountOut cfgW envW sigW)
        sigW.stop_loss ∈ (execute_signal cfgW envW [] sigW).2.2
    ∧ ExchCall.createLimitOrder (exchSymbol cfgW sigW) "sell" (totalAmountOut cfgW envW sigW)
        sigW.stop_loss ∈ (execute_signal cfgW envW [] sigW).2.2
    ∧ (execute_signal cfgW envW [] sigW).1 = true
    ∧ (successRecord cfgW envW sigW 1).stop_loss_order = none := by
  have h := C8_stop_loss_fallback cfgW envW [] sigW rfl (by norm_num [envW])
    (by norm_num [midpointPrice, sigW]) (by norm_num [sigW]) 1 rfl rfl rfl
  exact ⟨h.1, h.2.1, (h.2.2 rfl).1, (h.2.2 rfl).2.2⟩

/-- C3: the recorded average entry price is `totalCost / totalAmount`
over exactly the tranches whose orders succeeded — the first always,
the second only when attempted and filled — with a fallback to the
first-tranche price when the aggregated amount is zero; in particular,
when only the first tranche succeeds the average equals the first-buy
midpoint price.  Positivity of the prices and non-negativity of the
configuration make the zero test of the code (`> 0`) coincide with the
zero test of the claim. -/
theorem C3_average_entry_price (cfg : Config) (env : ExchangeEnv)
    (st : List (String × TradeRec)) (sig : TradingSignal)
    (hdup : st.lookup sig.symbol = none) (hbal : ¬ env.balance < 10)
    (hfbp : 0 < midpointPrice sig) (hsb : 0 < sig.second_buy)
    (o : Nat) (ho : env.first_order = some o)
    (hmos : 0 ≤ env.min_order_size) (hpct : 0 ≤ cfg.position_size_percentage)
    (hmax : 0 ≤ cfg.max_position_size) :
    (execute_signal cfg env st sig).2.1 = (sig.symbol, successRecord cfg env sig o) :: st
    ∧ totalAmountOut cfg env sig =
        firstAmountSized cfg env sig +
          (if (secondOrderResult cfg env sig).isSome then secondAmount cfg env sig else 0)
    ∧ totalCostOut cfg env sig =
        firstCostSized cfg env sig +
          (if (secondOrderResult cfg env sig).isSome then
            positionBudget cfg env.balance * (4 / 10) else 0)
    ∧ (successRecord cfg env sig o).avg_entry_price =
        (if totalAmountOut cfg env sig = 0 then midpointPrice sig
         else totalCostOut cfg env sig / totalAmountOut cfg env sig)
    ∧ ((secondOrderResult cfg env sig).isSome = false →
        (successRecord cfg env sig o).avg_entry_price = midpointPrice sig) := by
  have hbal0 : (0 : ℚ) ≤ env.balance := le_trans (by norm_num) (not_lt.mp hbal)
  have hbud : 0 ≤ positionBudget cfg env.balance := by
    rw [positionBudget]
    exact le_min (mul_nonneg hbal0 (div_nonneg hpct (by norm_num))) hmax
  have hraw : 0 ≤ firstAmountRaw cfg env sig := by
    rw [firstAmountRaw]
    exact div_nonneg (mul_nonneg hbud (by norm_num)) hfbp.le
  have hamt1 : 0 ≤ firstAmountSized cfg env sig := by
    rw [firstAmountSized]
    split_ifs
    · exact hmos
    · exact hraw
  have hsba : 0 ≤ secondAmount cfg env sig := by
    rw [secondAmount]
    exact div_nonneg (mul_nonneg hbud (by norm_num)) hsb.le
  have htot : 0 ≤ totalAmountOut cfg env sig := by
    rw [totalAmountOut]
    split_ifs
    · exact add_nonneg hamt1 hsba
    · exact hamt1
  refine ⟨by rw [execute_signal_success cfg env st sig hdup hbal hfbp.ne' o ho hsb.ne'],
    ?_, ?_, ?_, ?_⟩
  · rw [totalAmountOut]
    split_ifs <;> simp
  · rw [totalCostOut]
    split_ifs <;> simp
  · show avgEntryOut cfg env sig = _
    rw [avgEntryOut]
    rcases htot.lt_or_eq with hpos | hzero
    · rw [if_pos hpos, if_neg hpos.ne']
    · rw [if_neg (by rw [← hzero]; exact lt_irrefl 0), if_pos hzero.symm]
  · intro h2
    have hx : secondOrderResult cfg env sig = none := by
      cases hy : secondOrderResult cfg env sig with
      | none => rfl
      | some v => rw [hy] at h2; simp at h2
    have htot1 : totalAmountOut cfg env sig = firstAmountSized cfg env sig := by
      rw [totalAmountOut, hx]
      rfl
    have hcost1 : totalCostOut cfg env sig = firstCostSized cfg env sig := by
      rw [totalCostOut, hx]
      rfl
    show avgEntryOut cfg env sig = _
    rw [avgEntryOut, htot1, hcost1]
    by_cases hf : firstAmountRaw cfg env sig < env.min_order_size
    · have hmpos : 0 < env.min_order_size := lt_of_le_of_lt hraw hf
      rw [firstAmountSized, if_pos hf, firstCostSized, if_pos hf, if_pos hmpos]
      exact mul_div_cancel_left₀ (midpointPrice sig) hmpos.ne'
    · have hc0 : 0 ≤ positionBudget cfg env.balance * (6 / 10) :=
        mul_nonneg hbud (by norm_num)
      rw [firstAmountSized, if_neg hf, firstCostSized, if_neg hf, firstAmountRaw]
      rcases hc0.lt_or_eq with hcpos | hczero
      · have hrpos : 0 < positionBudget cfg env.balance * (6 / 10) / midpointPrice sig :=
          div_pos hcpos hfbp
        rw [if_pos hrpos, div_div_eq_mul_div]
        exact mul_div_cancel_left₀ (midpointPrice sig) hcpos.ne'
      · rw [← hczero, zero_div]
        rw [if_neg (lt_irrefl 0)]

/-- Witness for C3: concrete execution committing a record whose average
entry price satisfies the characterization. -/
theorem C3_witness :
    (execute_signal cfgW envW [] sigW).2.1 = [("ABC", successRecord cfgW envW sigW 1)]
    ∧ (successRecord cfgW envW sigW 1).avg_entry_price =
        (if totalAmountOut cfgW envW sigW = 0 then midpointPrice sigW
         else totalCostOut cfgW envW sigW / totalAmountOut cfgW envW sigW) := by
  have h := C3_average_entry_price cfgW envW [] sigW rfl (by norm_num [envW])
    (by norm_num [midpointPrice, sigW]) (by norm_num [sigW]) 1 rfl (by norm_num [envW])
    (by norm_num [cfgW]) (by norm_num [cfgW])
  exact ⟨h.1, h.2.2.2.1⟩

/-- C9 (amended): `get_active_trades` returns a *shallow* copy.  The
returned mapping is a fresh dict object with the same entries, so
mutating the mapping itself (here: assigning a key) is not observable in
the ledger; but the trade records are shared by reference, so mutating a
record reached through the snapshot *is* observable in the ledger's
internal state. -/
theorem C9_snapshot_shallow (s : ExecState) (h : s.active < s.next)
    (k k2 : String) (a : Nat) (r : TradeRec) :
    (get_active_trades_obj s).2.heap.dicts (get_active_trades_obj s).1 = s.heap.dicts s.active
    ∧ (get_active_trades_obj s).1 ≠ s.active
    ∧ ledgerView (dictSet (get_active_trades_obj s).2 (get_active_trades_obj s).1 k2 a) k
        = ledgerView (get_active_trades_obj s).2 k
    ∧ (∀ addr,
        ((get_active_trades_obj s).2.heap.dicts (get_active_trades_obj s).1).lookup k
            = some addr →
        ledgerView (recUpdate (get_active_trades_obj s).2 addr r) k = some r) := by
  have hne : s.next ≠ s.active := by omega
  have hne2 : s.active ≠ s.next := by omega
  refine ⟨?_, ?_, ?_, ?_⟩
  · simp [get_active_trades_obj, Function.update_same]
  · simpa [get_active_trades_obj] using hne
  · simp [ledgerView, dictSet, get_active_trades_obj, Function.update_noteq hne2,
      Function.update_same]
  · intro addr haddr
    simp only [get_active_trades_obj, Function.update_same] at haddr
    simp [ledgerView, recUpdate, get_active_trades_obj, Function.update_noteq hne2, haddr,
      Function.update_same]

/-- C9 counterexample: the snapshot of the concrete ledger hands out the
address of the stored record; mutating that record in place changes what
the ledger itself reports for `LSK` from `recC9a` to `recC9b` — refuting
the claim that no mutation performed through the returned value is
observable in the ledger's internal state. -/
theorem C9_counterexample :
    ((get_active_trades_obj stC9).2.heap.dicts (get_active_trades_obj stC9).1).lookup "LSK"
        = some 0
    ∧ ledgerView (get_active_trades_obj stC9).2 "LSK" = some recC9a
    ∧ ledgerView (recUpdate (get_active_trades_obj stC9).2 0 recC9b) "LSK" = some recC9b
    ∧ recC9a ≠ recC9b := by
  refine ⟨rfl, rfl, rfl, ?_⟩
  intro h
  have := congrArg TradeRec.total_amount h
  simp [recC9a, recC9b] at this

/-- Witness for C9: the amended theorem applied to the concrete
object-model state. -/
theorem C9_witness :
    (get_active_trades_obj stC9).2.heap.dicts (get_active_trades_obj stC9).1
        = stC9.heap.dicts stC9.active
    ∧ ledgerView (dictSet (get_active_trades_obj stC9).2 (get_active_trades_obj stC9).1
          "X" 5) "LSK"
        = ledgerView (get_active_trades_obj stC9).2 "LSK" := by
  have h := C9_snapshot_shallow stC9 (by norm_num [stC9]) "LSK" "X" 5 recC9b
  exact ⟨h.1, h.2.2.1⟩
